import Mathlib

/-!
Shallow embedding of the eigen-be library-management backend
(`src/main.py`, `src/models.py`).

The persistent store is modelled as in-memory lists of records
(`LibState`), one list per table.  SQLAlchemy's `query(...).first()`
becomes `List.find?`; mutating the object returned by `.first()`
becomes `updateFirst`; `db.delete(row)` on the row found by a query
becomes `eraseFirstP` with the query's predicate.  Dates are modelled
as integers (days); `date.today()` is an explicit `today` parameter;
`(a - b).days` is integer subtraction and `timedelta(days = n)` is
addition of `n`.

`return_book` in `src/main.py` builds its Borrowing query from
`member.code` and `book.code` *before* the `if not member` /
`if not book` checks (line 169 vs. lines 171-174); when either lookup
returned `None`, Python raises an `AttributeError`, which the
catch-all `exception_handler` converts into a generic 500 response.
This path is modelled as `Err.InternalError`.
-/

deriving instance DecidableEq for Except

namespace EigenBE

/-- A row of the `books` table (`models.Book`). -/
structure Book where
  code : String
  title : String
  author : String
  stock : Int
  borrowed : Int
  image : String
deriving Repr, DecidableEq

/-- A row of the `members` table (`models.Member`). -/
structure Member where
  code : String
  name : String
  penalty_end_date : Option Int
deriving Repr, DecidableEq

/-- A row of the `borrowings` table (`models.Borrowing`). -/
structure Borrowing where
  id : String
  member_code : String
  book_code : String
  borrowed_at : Int
deriving Repr, DecidableEq

/-- The persistent store: the three tables of the database. -/
structure LibState where
  books : List Book
  members : List Member
  borrowings : List Borrowing
deriving Repr, DecidableEq

/-- The error responses the handlers can produce (spec §7):
404 details, 400 details, and the catch-all 500. -/
inductive Err where
  | NotFoundMember
  | NotFoundBook
  | OutOfStock
  | BorrowLimitExceeded
  | MemberPenalized
  | DuplicateBorrowing
  | NotBorrowed
  | InternalError
deriving Repr, DecidableEq

/-- Replace the first element satisfying `p` by its image under `f`
(SQLAlchemy: mutate the row returned by `.first()`). -/
def updateFirst (p : α → Bool) (f : α → α) : List α → List α
  | [] => []
  | x :: xs => if p x then f x :: xs else x :: updateFirst p f xs

/-- Remove the first element satisfying `p`
(SQLAlchemy: `db.delete` on the row returned by `.first()`). -/
def eraseFirstP (p : α → Bool) : List α → List α
  | [] => []
  | x :: xs => if p x then xs else x :: eraseFirstP p xs

/-- Query `db.query(Member).filter(Member.code == member_code).first()`. -/
def LibState.findMember (s : LibState) (member_code : String) : Option Member :=
  s.members.find? (fun m => m.code == member_code)

/-- Query `db.query(Book).filter(Book.code == code).first()`. -/
def LibState.findBook (s : LibState) (code : String) : Option Book :=
  s.books.find? (fun b => b.code == code)

/-- Query `db.query(Borrowing).filter(Borrowing.member_code == mc, Borrowing.book_code == bc).first()`. -/
def LibState.findBorrowing (s : LibState) (mc bc : String) : Option Borrowing :=
  s.borrowings.find? (fun br => br.member_code == mc && br.book_code == bc)

/-- Python `len(member.borrowings)`: the relationship loads every Borrowing row
whose `member_code` matches the member's code. -/
def memberBorrowCount (s : LibState) (mc : String) : Nat :=
  (s.borrowings.filter (fun br => br.member_code == mc)).length

/-- Python `f"{n:03}"`: decimal, zero-padded to width at least 3. -/
def pad3 (n : Nat) : String :=
  let s := toString n
  if s.length < 3 then String.mk (List.replicate (3 - s.length) '0') ++ s else s

/-- Python `f"B{len(db.query(Borrowing).all()) + 1:03}"` given the current row count. -/
def borrowingId (n : Nat) : String := "B" ++ pad3 n

/-- The penalty gate of `borrow_book` (main.py line 148):
`member.penalty_end_date and member.penalty_end_date > date.today()`.
A `date` object is always truthy, so this is: non-null and strictly
after today. -/
def penaltyBlocks (ped : Option Int) (today : Int) : Bool :=
  match ped with
  | none => false
  | some d => today < d

/-- Handler for `POST /borrowings` (`borrow_book`, main.py lines 135-163). -/
def borrow_book (s : LibState) (today : Int) (member_code book_code : String) :
    Except Err (LibState × String) :=
  match s.findMember member_code with
  | none => .error .NotFoundMember
  | some member =>
    match s.findBook book_code with
    | none => .error .NotFoundBook
    | some book =>
      if book.stock ≤ book.borrowed then .error .OutOfStock
      else if 2 ≤ memberBorrowCount s member.code then .error .BorrowLimitExceeded
      else if penaltyBlocks member.penalty_end_date today then .error .MemberPenalized
      else if (s.findBorrowing member_code book_code).isSome then .error .DuplicateBorrowing
      else
        let bid := borrowingId (s.borrowings.length + 1)
        let br : Borrowing := ⟨bid, member.code, book.code, today⟩
        .ok ({ s with
                books := updateFirst (fun b => b.code == book_code)
                  (fun b => { b with borrowed := b.borrowed + 1 }) s.books,
                borrowings := s.borrowings ++ [br] }, bid)

/-- Handler for `POST /returns` (`return_book`, main.py lines 165-188).  The
Borrowing query (line 169) dereferences `member.code` and `book.code`
before the null checks, so a missing member or book yields the
catch-all 500 (`InternalError`), not the 404 of lines 171-174. -/
def return_book (s : LibState) (today : Int) (member_code book_code : String) :
    Except Err LibState :=
  match s.findMember member_code with
  | none => .error .InternalError
  | some member =>
    match s.findBook book_code with
    | none => .error .InternalError
    | some book =>
      match s.findBorrowing member.code book.code with
      | none => .error .NotBorrowed
      | some borrowing =>
        let days_overdue : Int := (today - borrowing.borrowed_at) - 7
        let member' : Member :=
          if 0 < days_overdue then
            { member with penalty_end_date := some (today + days_overdue * 3) }
          else member
        .ok { s with
              members := updateFirst (fun m => m.code == member_code)
                (fun _ => member') s.members,
              books := updateFirst (fun b => b.code == book_code)
                (fun b => { b with borrowed := b.borrowed - 1 }) s.books,
              borrowings := eraseFirstP
                (fun br => br.member_code == member.code && br.book_code == book.code)
                s.borrowings }

/-- Outcome of the OpenLibrary cover lookup in `create_book`
(main.py lines 61-82): either the HTTP request fails
(`response.raise_for_status()` raises), or it returns a payload with
`numFound` and a list of docs, each optionally carrying `cover_i`. -/
inductive LookupResult where
  | failure
  | found (numFound : Nat) (docs : List (Option Nat))
deriving Repr, DecidableEq

/-- The first `cover_i` among the result docs (the `for doc in docs`
loop with `break`). -/
def firstCover : List (Option Nat) → Option Nat
  | [] => none
  | some c :: _ => some c
  | none :: rest => firstCover rest

/-- Python `f"https://covers.openlibrary.org/b/id/{cover_i}-L.jpg"`. -/
def coverUrl (c : Nat) : String :=
  "https://covers.openlibrary.org/b/id/" ++ toString c ++ "-L.jpg"

/-- Successful response payload of `POST /books`. -/
structure CreateResponse where
  message : String
  image : String
deriving Repr, DecidableEq

/-- Handler for `POST /books` (`create_book`, main.py lines 54-86).  The book is
committed with `image = ""` before the lookup; a lookup failure then
propagates to the catch-all handler (500) with the book already
persisted, while "no results" / "no cover_i" keep `image = ""` and
still return success. -/
def create_book (s : LibState) (code title author : String) (stock : Int)
    (lookup : LookupResult) : LibState × Except Err CreateResponse :=
  let book : Book := ⟨code, title, author, stock, 0, ""⟩
  match lookup with
  | .failure => ({ s with books := s.books ++ [book] }, .error .InternalError)
  | .found numFound docs =>
    if 0 < numFound then
      match firstCover docs with
      | some c =>
        let url := coverUrl c
        ({ s with books := s.books ++ [{ book with image := url }] },
         .ok ⟨"Book created", url⟩)
      | none => ({ s with books := s.books ++ [book] }, .ok ⟨"Book created", ""⟩)
    else ({ s with books := s.books ++ [book] }, .ok ⟨"Book created", ""⟩)

/-- Handler for `PUT /books/{code}` (`update_book`, main.py lines 88-97). -/
def update_book (s : LibState) (code title author : String) (stock : Int) :
    Except Err LibState :=
  match s.findBook code with
  | none => .error .NotFoundBook
  | some _ =>
    .ok { s with
          books := updateFirst (fun b => b.code == code)
            (fun b => { b with title := title, author := author, stock := stock }) s.books }

/-- Handler for `DELETE /books/{code}` (`delete_book`, main.py lines 100-107). -/
def delete_book (s : LibState) (code : String) : Except Err LibState :=
  match s.findBook code with
  | none => .error .NotFoundBook
  | some _ => .ok { s with books := eraseFirstP (fun b => b.code == code) s.books }

/-- Holds exactly on a 200 response. -/
def isSuccess : Except Err α → Bool
  | .ok _ => true
  | .error _ => false

/-- The spec's book invariant (§3, §8): `0 ≤ borrowed ≤ stock`. -/
def BookInv (b : Book) : Prop := 0 ≤ b.borrowed ∧ b.borrowed ≤ b.stock

/-- The invariant claimed for every stored book. -/
def StateInv (s : LibState) : Prop := ∀ b ∈ s.books, BookInv b

instance (b : Book) : Decidable (BookInv b) := by
  unfold BookInv; infer_instance

instance (s : LibState) : Decidable (StateInv s) := by
  unfold StateInv; exact List.decidableBAll _ _

/-- Pointwise relation between a book before and after a return:
every field unchanged except possibly `borrowed`, which is either
untouched or decremented by exactly 1. -/
def BookFrame (x y : Book) : Prop :=
  y.code = x.code ∧ y.title = x.title ∧ y.author = x.author
  ∧ y.stock = x.stock ∧ y.image = x.image
  ∧ (y.borrowed = x.borrowed ∨ y.borrowed = x.borrowed - 1)

/-! ### Concrete states used in counterexamples and witnesses -/

/-- A one-copy book, fully in stock. -/
def bkFree : Book := ⟨"B001", "Title", "Author", 1, 0, ""⟩

/-- A one-copy book whose single copy is lent out. -/
def bkLent : Book := ⟨"B001", "Title", "Author", 1, 1, ""⟩

/-- A member with no penalty. -/
def alice : Member := ⟨"M001", "Alice", none⟩

/-- A second member with no penalty. -/
def bob : Member := ⟨"M002", "Bob", none⟩

/-- A store holding one free book and one member whose penalty ends
exactly today (`today = 100`). -/
def stPenaltyToday : LibState := ⟨[bkFree], [⟨"M001", "Alice", some 100⟩], []⟩

/-- A store holding one book and no members. -/
def stNoMember : LibState := ⟨[bkFree], [], []⟩

/-- A store holding one book with `stock = 1, borrowed = 1`. -/
def stTight : LibState := ⟨[bkLent], [], []⟩

/-- The store after updating the book of `stTight` to `stock = 0`:
`borrowed = 1 > 0 = stock`. -/
def stBroken : LibState := ⟨[⟨"B001", "NewTitle", "NewAuthor", 0, 1, ""⟩], [], []⟩

/-- One free one-copy book, two members, nothing borrowed. -/
def stOneFree : LibState := ⟨[bkFree], [alice, bob], []⟩

/-- The store after `alice` borrows the book of `stOneFree` at day 0. -/
def stOneLent : LibState := ⟨[bkLent], [alice, bob], [⟨"B001", "M001", "B001", 0⟩]⟩

/-- A member already holding two active borrowings, and a book with
plenty of stock. -/
def stTwoLoans : LibState :=
  ⟨[⟨"B001", "Title", "Author", 5, 0, ""⟩], [alice],
   [⟨"B001", "M001", "B002", 0⟩, ⟨"B002", "M001", "B003", 0⟩]⟩

/-- A borrowing from day 100 held by a member with a prior penalty
ending on day 102. -/
def stOverdue : LibState :=
  ⟨[bkLent], [⟨"M001", "Alice", some 102⟩], [⟨"B001", "M001", "B001", 100⟩]⟩

/-- The store after returning the book of `stOverdue` on day 108
(1 day overdue: penalty ends on day 111, replacing the prior 102). -/
def stOverdueAfter : LibState :=
  ⟨[bkFree], [⟨"M001", "Alice", some 111⟩], []⟩

/-! ### Lemmas about `updateFirst` and `eraseFirstP` -/

theorem updateFirst_cons_pos {p : α → Bool} {f : α → α} {a : α} {l : List α}
    (h : p a = true) : updateFirst p f (a :: l) = f a :: l := by
  simp [updateFirst, h]

theorem updateFirst_cons_neg {p : α → Bool} {f : α → α} {a : α} {l : List α}
    (h : p a = false) : updateFirst p f (a :: l) = a :: updateFirst p f l := by
  simp [updateFirst, h]

/-- Every element of `updateFirst p f l` is either an untouched element of
`l` or the image under `f` of the first element satisfying `p`. -/
theorem mem_updateFirst {p : α → Bool} {f : α → α} {l : List α} {x : α}
    (hx : x ∈ updateFirst p f l) :
    x ∈ l ∨ ∃ y, l.find? p = some y ∧ x = f y := by
  induction l with
  | nil => simp [updateFirst] at hx
  | cons a l ih =>
    by_cases hp : p a
    · rw [updateFirst_cons_pos hp] at hx
      rcases List.mem_cons.mp hx with h | h
      · exact Or.inr ⟨a, List.find?_cons_of_pos l hp, h⟩
      · exact Or.inl (List.mem_cons_of_mem a h)
    · rw [updateFirst_cons_neg (by simpa using hp)] at hx
      rcases List.mem_cons.mp hx with h | h
      · exact Or.inl (h ▸ List.mem_cons_self a l)
      · rcases ih h with h₂ | ⟨y, hy, hxy⟩
        · exact Or.inl (List.mem_cons_of_mem a h₂)
        · exact Or.inr ⟨y, by rwa [List.find?_cons_of_neg l hp], hxy⟩

/-- If `f` preserves `p` on elements satisfying `p`, then searching the
updated list finds the image of what the original search found. -/
theorem find?_updateFirst {p : α → Bool} {f : α → α}
    (hpf : ∀ x, p x = true → p (f x) = true) (l : List α) :
    (updateFirst p f l).find? p = (l.find? p).map f := by
  induction l with
  | nil => simp [updateFirst]
  | cons a l ih =>
    by_cases hp : p a
    · rw [updateFirst_cons_pos hp, List.find?_cons_of_pos _ (hpf a hp),
        List.find?_cons_of_pos _ hp]
      rfl
    · rw [updateFirst_cons_neg (by simpa using hp), List.find?_cons_of_neg _ hp,
        List.find?_cons_of_neg _ hp, ih]

/-- Replacing the first element satisfying `p` by itself changes nothing. -/
theorem updateFirst_find?_self {p : α → Bool} {l : List α} {a : α}
    (h : l.find? p = some a) : updateFirst p (fun _ => a) l = l := by
  induction l with
  | nil => simp at h
  | cons b l ih =>
    by_cases hp : p b
    · rw [List.find?_cons_of_pos _ hp, Option.some_inj] at h
      rw [updateFirst_cons_pos hp, h]
    · rw [List.find?_cons_of_neg _ hp] at h
      rw [updateFirst_cons_neg (by simpa using hp), ih h]

/-- Two successive first-match updates with the same predicate compose. -/
theorem updateFirst_updateFirst {p : α → Bool} {f g : α → α}
    (hg : ∀ x, p x = true → p (g x) = true) (l : List α) :
    updateFirst p f (updateFirst p g l) = updateFirst p (fun x => f (g x)) l := by
  induction l with
  | nil => rfl
  | cons a l ih =>
    by_cases hp : p a
    · rw [updateFirst_cons_pos hp, updateFirst_cons_pos (hg a hp), updateFirst_cons_pos hp]
    · rw [updateFirst_cons_neg (by simpa using hp), updateFirst_cons_neg (by simpa using hp),
        updateFirst_cons_neg (by simpa using hp), ih]

/-- `updateFirst` only looks at `f` on elements satisfying `p`. -/
theorem updateFirst_congr {p : α → Bool} {f g : α → α}
    (h : ∀ x, p x = true → f x = g x) (l : List α) :
    updateFirst p f l = updateFirst p g l := by
  induction l with
  | nil => rfl
  | cons a l ih =>
    by_cases hp : p a
    · rw [updateFirst_cons_pos hp, updateFirst_cons_pos hp, h a hp]
    · rw [updateFirst_cons_neg (by simpa using hp), updateFirst_cons_neg (by simpa using hp), ih]

theorem updateFirst_id {p : α → Bool} (l : List α) :
    updateFirst p (fun x => x) l = l := by
  induction l with
  | nil => rfl
  | cons a l ih =>
    by_cases hp : p a
    · rw [updateFirst_cons_pos hp]
    · rw [updateFirst_cons_neg (by simpa using hp), ih]

theorem forall₂_self {R : α → α → Prop} (hrefl : ∀ x, R x x) (l : List α) :
    List.Forall₂ R l l := by
  induction l with
  | nil => exact List.Forall₂.nil
  | cons a l ih => exact List.Forall₂.cons (hrefl a) ih

/-- The updated list is pointwise related to the original by
"equal or an `f`-image". -/
theorem forall₂_updateFirst {p : α → Bool} {f : α → α} {R : α → α → Prop}
    (hrefl : ∀ x, R x x) (hf : ∀ x, R x (f x)) (l : List α) :
    List.Forall₂ R l (updateFirst p f l) := by
  induction l with
  | nil => exact List.Forall₂.nil
  | cons a l ih =>
    by_cases hp : p a
    · rw [updateFirst_cons_pos hp]
      exact List.Forall₂.cons (hf a) (forall₂_self hrefl l)
    · rw [updateFirst_cons_neg (by simpa using hp)]
      exact List.Forall₂.cons (hrefl a) ih

theorem eraseFirstP_cons_pos {p : α → Bool} {a : α} {l : List α}
    (h : p a = true) : eraseFirstP p (a :: l) = l := by
  simp [eraseFirstP, h]

theorem eraseFirstP_cons_neg {p : α → Bool} {a : α} {l : List α}
    (h : p a = false) : eraseFirstP p (a :: l) = a :: eraseFirstP p l := by
  simp [eraseFirstP, h]

theorem mem_eraseFirstP {p : α → Bool} {l : List α} {x : α}
    (hx : x ∈ eraseFirstP p l) : x ∈ l := by
  induction l with
  | nil => simp [eraseFirstP] at hx
  | cons a l ih =>
    by_cases hp : p a
    · rw [eraseFirstP_cons_pos hp] at hx
      exact List.mem_cons_of_mem a hx
    · rw [eraseFirstP_cons_neg (by simpa using hp)] at hx
      rcases List.mem_cons.mp hx with h | h
      · exact h ▸ List.mem_cons_self a l
      · exact List.mem_cons_of_mem a (ih h)

/-- Erasing the first match from a list whose prefix has no match and
whose appended last element matches removes exactly that last element. -/
theorem eraseFirstP_append_singleton {p : α → Bool} {l : List α} {a : α}
    (h : l.find? p = none) (hpa : p a = true) :
    eraseFirstP p (l ++ [a]) = l := by
  induction l with
  | nil =>
    rw [List.nil_append]
    exact eraseFirstP_cons_pos hpa
  | cons b l ih =>
    rw [List.find?_cons] at h
    rcases hb : p b with hfalse | htrue
    · rw [List.cons_append, eraseFirstP_cons_neg hb, ih (by rwa [hb] at h)]
    · rw [hb] at h
      simp at h

/-- If at most one element satisfies `p` (pairwise: no two matches),
erasing the first match leaves a list with no match. -/
theorem find?_eraseFirstP {p : α → Bool} {l : List α}
    (hl : l.Pairwise (fun x y => ¬(p x = true ∧ p y = true))) :
    (eraseFirstP p l).find? p = none := by
  induction l with
  | nil => simp [eraseFirstP]
  | cons a l ih =>
    rcases List.pairwise_cons.mp hl with ⟨ha, hl'⟩
    by_cases hp : p a
    · rw [eraseFirstP_cons_pos hp]
      exact List.find?_eq_none.mpr (fun x hx hpx => ha x hx ⟨hp, hpx⟩)
    · rw [eraseFirstP_cons_neg (by simpa using hp), List.find?_cons_of_neg _ hp]
      exact ih hl'

/-! ### The penalty gate -/

theorem penaltyBlocks_iff {ped : Option Int} {today : Int} :
    penaltyBlocks ped today = true ↔ ∃ d, ped = some d ∧ today < d := by
  cases ped with
  | none => simp [penaltyBlocks]
  | some d => simp [penaltyBlocks]

/-- In every branch of `create_book`, the new book row is appended to the
store, with `borrowed = 0` and the requested stock. -/
theorem create_book_books (s : LibState) (c t a : String) (st : Int)
    (lk : LookupResult) :
    ∃ img, (create_book s c t a st lk).1.books = s.books ++ [⟨c, t, a, st, 0, img⟩] := by
  cases lk with
  | failure => exact ⟨"", rfl⟩
  | found nf docs =>
    by_cases hnf : 0 < nf
    · cases hc : firstCover docs with
      | none =>
        refine ⟨"", ?_⟩
        simp [create_book, hnf, hc]
      | some c0 =>
        refine ⟨coverUrl c0, ?_⟩
        simp [create_book, hnf, hc]
    · refine ⟨"", ?_⟩
      simp [create_book, hnf]

/-! ### Claim theorems -/

/-- C1 (counterexample): in `stPenaltyToday` the member's
`penalty_end_date` equals today (`100`), yet the borrow request is NOT
rejected with `MemberPenalized` — it succeeds, because the code blocks
only on `penalty_end_date > today` (main.py line 148). -/
theorem borrow_penalty_boundary_not_blocked :
    borrow_book stPenaltyToday 100 "M001" "B001" ≠ Except.error Err.MemberPenalized
    ∧ isSuccess (borrow_book stPenaltyToday 100 "M001" "B001") = true := by
  decide

/-- C1 (amended): once the member and book exist, stock remains and the
borrow limit is not reached, the borrow request is rejected with
`MemberPenalized` iff `penalty_end_date` is non-null and strictly
later than today; in particular a member whose `penalty_end_date`
equals today passes the penalty check, so the request either succeeds
or fails only on the later duplicate-borrowing check. -/
theorem borrow_penalty_check_characterization (s : LibState) (today : Int)
    (mc bc : String) (m : Member) (b : Book)
    (hm : s.findMember mc = some m) (hb : s.findBook bc = some b)
    (hstock : b.borrowed < b.stock) (hcount : memberBorrowCount s m.code < 2) :
    (borrow_book s today mc bc = Except.error Err.MemberPenalized
      ↔ ∃ d, m.penalty_end_date = some d ∧ today < d)
    ∧ (m.penalty_end_date = some today →
        isSuccess (borrow_book s today mc bc) = true
        ∨ borrow_book s today mc bc = Except.error Err.DuplicateBorrowing) := by
  simp only [borrow_book, hm, hb]
  rw [if_neg (not_le.mpr hstock), if_neg (not_le.mpr hcount)]
  constructor
  · by_cases hpb : penaltyBlocks m.penalty_end_date today = true
    · rw [if_pos hpb]
      exact ⟨fun _ => penaltyBlocks_iff.mp hpb, fun _ => rfl⟩
    · rw [if_neg hpb]
      constructor
      · intro h
        exfalso
        split at h <;> simp at h
      · intro hd
        exact absurd (penaltyBlocks_iff.mpr hd) hpb
  · intro hped
    have hpb : ¬ penaltyBlocks m.penalty_end_date today = true := by
      simp [penaltyBlocks, hped]
    rw [if_neg hpb]
    by_cases hdup : (s.findBorrowing mc bc).isSome = true
    · rw [if_pos hdup]
      exact Or.inr rfl
    · rw [if_neg hdup]
      exact Or.inl rfl

/-- C1 witness for the amended characterization, at the boundary input:
`penalty_end_date = some 100`, `today = 100`. -/
theorem borrow_penalty_check_characterization_witness :
    isSuccess (borrow_book stPenaltyToday 100 "M001" "B001") = true
    ∨ borrow_book stPenaltyToday 100 "M001" "B001" = Except.error Err.DuplicateBorrowing := by
  exact (borrow_penalty_check_characterization stPenaltyToday 100 "M001" "B001"
    ⟨"M001", "Alice", some 100⟩ bkFree (by decide) (by decide) (by decide) (by decide)).2
    (by decide)

/-- C2 (code bug): a `Return` with a nonexistent member (or book) does
not produce the specified 404 `NotFound`: the Borrowing query at
main.py line 169 dereferences `member.code` / `book.code` before the
null checks of lines 171-174, raising `AttributeError`, which the
catch-all `exception_handler` turns into the generic 500
(`InternalError`).  The `NotBorrowed` case and the absence of state
mutation on these error paths do hold. -/
theorem return_missing_entity_is_500 :
    return_book stNoMember 0 "M999" "B001" = Except.error Err.InternalError
    ∧ return_book stNoMember 0 "M999" "B001" ≠ Except.error Err.NotFoundMember
    ∧ return_book ⟨[], [alice], []⟩ 0 "M001" "B001" = Except.error Err.InternalError
    ∧ return_book ⟨[], [alice], []⟩ 0 "M001" "B001" ≠ Except.error Err.NotFoundBook
    ∧ return_book stOneFree 0 "M001" "B001" = Except.error Err.NotBorrowed := by
  decide

/-- C3 (counterexample): `update_book` performs no validation of the new
stock (main.py lines 88-97): updating a book with `stock = 1,
borrowed = 1` to `stock = 0` produces `borrowed = 1 > 0 = stock`,
violating the claimed invariant after an operation, starting from a
state that satisfied it. -/
theorem update_book_breaks_invariant :
    StateInv stTight
    ∧ update_book stTight "B001" "NewTitle" "NewAuthor" 0 = Except.ok stBroken
    ∧ ¬ StateInv stBroken := by
  exact ⟨by decide, by decide, by decide⟩

/-- C3 (amended): `0 ≤ borrowed ≤ stock` is preserved by a successful
borrow, preserved by a successful return provided every stored book
with the returned code has at least one copy lent, and established by
`create_book` when the requested stock is nonnegative; `update_book`
(and `create_book` with negative stock) can violate it because the
code never validates stock. -/
theorem invariant_preservation (s : LibState) (today : Int) (mc bc : String)
    (hInv : StateInv s) :
    (∀ s' bid, borrow_book s today mc bc = Except.ok (s', bid) → StateInv s')
    ∧ (∀ s', return_book s today mc bc = Except.ok s' →
        (∀ b ∈ s.books, b.code = bc → 1 ≤ b.borrowed) → StateInv s')
    ∧ (∀ c t a st lk, 0 ≤ st → StateInv (create_book s c t a st lk).1) := by
  refine ⟨?_, ?_, ?_⟩
  · intro s' bid h
    unfold borrow_book at h
    split at h
    · exact absurd h (by simp)
    · rename_i member hm
      split at h
      · exact absurd h (by simp)
      · rename_i book hb
        split at h
        · exact absurd h (by simp)
        · rename_i hstock
          split at h
          · exact absurd h (by simp)
          · split at h
            · exact absurd h (by simp)
            · split at h
              · exact absurd h (by simp)
              · injection h with h1
                injection h1 with h2 h3
                subst h2
                intro x hx
                rcases mem_updateFirst hx with hmem | ⟨y, hy, rfl⟩
                · exact hInv x hmem
                · unfold LibState.findBook at hb
                  rw [hb, Option.some_inj] at hy
                  subst hy
                  obtain ⟨h0, h1⟩ := hInv book (List.mem_of_find?_eq_some hb)
                  rw [not_le] at hstock
                  exact ⟨show (0:Int) ≤ book.borrowed + 1 by omega,
                    show book.borrowed + 1 ≤ book.stock by omega⟩
  · intro s' h hpos
    unfold return_book at h
    split at h
    · exact absurd h (by simp)
    · rename_i member hm
      split at h
      · exact absurd h (by simp)
      · rename_i book hb
        split at h
        · exact absurd h (by simp)
        · rename_i borrowing hbr
          injection h with h1
          subst h1
          intro x hx
          rcases mem_updateFirst hx with hmem | ⟨y, hy, rfl⟩
          · exact hInv x hmem
          · unfold LibState.findBook at hb
            rw [hb, Option.some_inj] at hy
            subst hy
            have hcode : book.code = bc := by
              have := List.find?_some hb
              exact eq_of_beq (by simpa using this)
            have hmem : book ∈ s.books := List.mem_of_find?_eq_some hb
            obtain ⟨h0, h1⟩ := hInv book hmem
            have h2 := hpos book hmem hcode
            exact ⟨show (0:Int) ≤ book.borrowed - 1 by omega,
              show book.borrowed - 1 ≤ book.stock by omega⟩
  · intro c t a st lk hst
    obtain ⟨img, hbooks⟩ := create_book_books s c t a st lk
    intro x hx
    rw [hbooks] at hx
    rcases List.mem_append.mp hx with hmem | hmem
    · exact hInv x hmem
    · rw [List.mem_singleton] at hmem
      subst hmem
      exact ⟨le_refl 0, hst⟩

/-- C3 witness: the amended preservation applied to a concrete borrow
(`stOneFree` to `stOneLent`). -/
theorem invariant_preservation_witness : StateInv stOneLent := by
  exact (invariant_preservation stOneFree 0 "M001" "B001" (by decide)).1
    stOneLent "B001" (by decide)

/-- C4 (counterexample): a failing cover lookup
(`response.raise_for_status()`, main.py line 63) propagates to the
catch-all handler: the creation request answers with the generic 500,
not success — the failure IS surfaced as an error response. -/
theorem create_book_lookup_failure_is_500 :
    (create_book ⟨[], [], []⟩ "B001" "Title" "Author" 3 LookupResult.failure).2
      = Except.error Err.InternalError
    ∧ isSuccess
        (create_book ⟨[], [], []⟩ "B001" "Title" "Author" 3 LookupResult.failure).2
      = false := by
  decide

/-- C4 (amended): absence of a cover identifier among the result docs,
or absence of results (`numFound = 0`), leaves `image` empty and the
creation still returns success; but a lookup failure is surfaced as
the generic 500 (`InternalError`), with the book already persisted
with an empty `image`. -/
theorem cover_lookup_degradation (s : LibState) (c t a : String) (st : Int)
    (nf : Nat) (docs : List (Option Nat)) :
    (firstCover docs = none →
      (create_book s c t a st (LookupResult.found nf docs)).2
        = Except.ok ⟨"Book created", ""⟩)
    ∧ (nf = 0 →
      (create_book s c t a st (LookupResult.found nf docs)).2
        = Except.ok ⟨"Book created", ""⟩)
    ∧ (create_book s c t a st LookupResult.failure).2 = Except.error Err.InternalError
    ∧ (create_book s c t a st LookupResult.failure).1.books
        = s.books ++ [⟨c, t, a, st, 0, ""⟩] := by
  refine ⟨?_, ?_, rfl, rfl⟩
  · intro hc
    by_cases hnf : 0 < nf
    · simp [create_book, hnf, hc]
    · simp [create_book, hnf]
  · intro h0
    subst h0
    simp [create_book]

/-- C4 witness: a lookup answering with docs but no cover identifier
degrades to an empty image and a success response. -/
theorem cover_lookup_degradation_witness :
    (create_book stNoMember "B002" "T2" "A2" 2 (LookupResult.found 3 [none])).2
      = Except.ok ⟨"Book created", ""⟩ := by
  exact (cover_lookup_degradation stNoMember "B002" "T2" "A2" 2 3 [none]).1 (by decide)

/-- C5: on a successful return of a borrowing taken `d` days ago,
if `d ≤ 7` the member record is left as it was (no penalty set by this
return); if `d > 7` the member's `penalty_end_date` becomes
`today + 3 * (d - 7)`, overwriting any prior value. -/
theorem return_penalty_computation (s : LibState) (today : Int) (mc bc : String)
    (s' : LibState) (m : Member) (b : Book) (br : Borrowing)
    (hm : s.findMember mc = some m) (hb : s.findBook bc = some b)
    (hbr : s.findBorrowing m.code b.code = some br)
    (hok : return_book s today mc bc = Except.ok s') :
    (today - br.borrowed_at ≤ 7 → s'.findMember mc = some m)
    ∧ (7 < today - br.borrowed_at →
        s'.findMember mc =
          some { m with
                 penalty_end_date := some (today + (today - br.borrowed_at - 7) * 3) }) := by
  simp only [return_book, hm, hb, hbr] at hok
  injection hok with h1
  subst h1
  simp only [LibState.findMember] at hm ⊢
  have hpm := List.find?_some hm
  constructor
  · intro hd
    simp only [if_neg (show ¬ (0:Int) < today - br.borrowed_at - 7 by omega)]
    rw [updateFirst_find?_self hm]
    exact hm
  · intro hd
    simp only [if_pos (show (0:Int) < today - br.borrowed_at - 7 by omega)]
    rw [@find?_updateFirst Member (fun x => x.code == mc)
      (fun _ => { m with
        penalty_end_date := some (today + (today - br.borrowed_at - 7) * 3) })
      (fun _ _ => hpm) s.members, hm]
    rfl

/-- C5 witness: borrowed on day 100, returned on day 108 (`d = 8`,
1 day overdue): the prior penalty ending on day 102 is replaced by one
ending on day `108 + 3 = 111`. -/
theorem return_penalty_computation_witness :
    stOverdueAfter.findMember "M001" = some ⟨"M001", "Alice", some 111⟩ := by
  have h := (return_penalty_computation stOverdue 108 "M001" "B001" stOverdueAfter
    ⟨"M001", "Alice", some 102⟩ bkLent ⟨"B001", "M001", "B001", 100⟩
    (by decide) (by decide) (by decide) (by decide)).2 (by decide)
  exact h

/-- C6: once the member and book exist, the borrow is rejected with
`OutOfStock` exactly when `borrowed = stock` (assuming
`borrowed ≤ stock`); equivalently it passes the stock check iff
`borrowed < stock`. -/
theorem out_of_stock_boundary (s : LibState) (today : Int) (mc bc : String)
    (m : Member) (b : Book)
    (hm : s.findMember mc = some m) (hb : s.findBook bc = some b)
    (hbs : b.borrowed ≤ b.stock) :
    borrow_book s today mc bc = Except.error Err.OutOfStock ↔ b.borrowed = b.stock := by
  simp only [borrow_book, hm, hb]
  by_cases hc : b.stock ≤ b.borrowed
  · rw [if_pos hc]
    exact ⟨fun _ => le_antisymm hbs hc, fun _ => rfl⟩
  · rw [if_neg hc]
    constructor
    · intro h
      exfalso
      split at h
      · simp at h
      · split at h
        · simp at h
        · split at h
          · simp at h
          · simp at h
    · intro h
      exact absurd (le_of_eq h.symm) hc

/-- C6 witness: the spec's scenario: a book with `stock = 1,
borrowed = 0` is borrowed successfully; a second borrow of the same
book by a different member is rejected with `OutOfStock`. -/
theorem out_of_stock_boundary_witness :
    isSuccess (borrow_book stOneFree 0 "M001" "B001") = true
    ∧ borrow_book stOneLent 0 "M002" "B001" = Except.error Err.OutOfStock := by
  constructor
  · decide
  · exact (out_of_stock_boundary stOneLent 0 "M002" "B001" bob bkLent
      (by decide) (by decide) (by decide)).mpr (by decide)

/-- C7: the six borrow preconditions are evaluated in order — member
exists, book exists, `borrowed < stock`, fewer than 2 active
borrowings, not penalized, no duplicate `(member, book)` borrowing —
and the first failing check determines the error; when all pass the
borrow succeeds, creating the Borrowing with `borrowed_at = today`, a
sequential id, and incrementing `borrowed` by one.  In particular a
member with exactly 2 active borrowings hits `BorrowLimitExceeded`
and one with fewer passes that check. -/
theorem borrow_check_order (s : LibState) (today : Int) (mc bc : String) :
    (s.findMember mc = none →
      borrow_book s today mc bc = Except.error Err.NotFoundMember)
    ∧ (∀ m, s.findMember mc = some m → s.findBook bc = none →
        borrow_book s today mc bc = Except.error Err.NotFoundBook)
    ∧ (∀ m b, s.findMember mc = some m → s.findBook bc = some b →
        b.stock ≤ b.borrowed →
        borrow_book s today mc bc = Except.error Err.OutOfStock)
    ∧ (∀ m b, s.findMember mc = some m → s.findBook bc = some b →
        b.borrowed < b.stock → 2 ≤ memberBorrowCount s m.code →
        borrow_book s today mc bc = Except.error Err.BorrowLimitExceeded)
    ∧ (∀ m b, s.findMember mc = some m → s.findBook bc = some b →
        b.borrowed < b.stock → memberBorrowCount s m.code < 2 →
        penaltyBlocks m.penalty_end_date today = true →
        borrow_book s today mc bc = Except.error Err.MemberPenalized)
    ∧ (∀ m b, s.findMember mc = some m → s.findBook bc = some b →
        b.borrowed < b.stock → memberBorrowCount s m.code < 2 →
        penaltyBlocks m.penalty_end_date today = false →
        (s.findBorrowing mc bc).isSome = true →
        borrow_book s today mc bc = Except.error Err.DuplicateBorrowing)
    ∧ (∀ m b, s.findMember mc = some m → s.findBook bc = some b →
        b.borrowed < b.stock → memberBorrowCount s m.code < 2 →
        penaltyBlocks m.penalty_end_date today = false →
        s.findBorrowing mc bc = none →
        borrow_book s today mc bc
          = Except.ok ({ s with
              books := updateFirst (fun x => x.code == bc)
                (fun x => { x with borrowed := x.borrowed + 1 }) s.books,
              borrowings := s.borrowings
                ++ [⟨borrowingId (s.borrowings.length + 1), m.code, b.code, today⟩] },
            borrowingId (s.borrowings.length + 1))) := by
  refine ⟨?_, ?_, ?_, ?_, ?_, ?_, ?_⟩
  · intro h
    simp [borrow_book, h]
  · intro m hm hb
    simp [borrow_book, hm, hb]
  · intro m b hm hb h
    simp only [borrow_book, hm, hb]
    rw [if_pos h]
  · intro m b hm hb h1 h2
    simp only [borrow_book, hm, hb]
    rw [if_neg (not_le.mpr h1), if_pos h2]
  · intro m b hm hb h1 h2 h3
    simp only [borrow_book, hm, hb]
    rw [if_neg (not_le.mpr h1), if_neg (not_le.mpr h2), if_pos h3]
  · intro m b hm hb h1 h2 h3 h4
    simp only [borrow_book, hm, hb]
    rw [if_neg (not_le.mpr h1), if_neg (not_le.mpr h2), if_neg (by simp [h3]), if_pos h4]
  · intro m b hm hb h1 h2 h3 h4
    simp only [borrow_book, hm, hb]
    rw [if_neg (not_le.mpr h1), if_neg (not_le.mpr h2), if_neg (by simp [h3]),
      if_neg (by simp [h4])]

/-- C7 witness: a member holding exactly 2 active borrowings is
rejected with `BorrowLimitExceeded` on a 3rd attempt (stock being
available), and a missing member yields its 404 first. -/
theorem borrow_check_order_witness :
    borrow_book stTwoLoans 0 "M001" "B001" = Except.error Err.BorrowLimitExceeded
    ∧ borrow_book stNoMember 0 "M999" "B001" = Except.error Err.NotFoundMember := by
  constructor
  · exact (borrow_check_order stTwoLoans 0 "M001" "B001").2.2.2.1 alice
      ⟨"B001", "Title", "Author", 5, 0, ""⟩ (by decide) (by decide) (by decide) (by decide)
  · exact (borrow_check_order stNoMember 0 "M999" "B001").1 (by decide)

/-- Incrementing and then decrementing `borrowed` of the first book
matching `p` (a predicate insensitive to `borrowed`) is the identity. -/
theorem updateFirst_inc_dec {p : Book → Bool}
    (hp : ∀ b, p { b with borrowed := b.borrowed + 1 } = p b) (l : List Book) :
    updateFirst p (fun b => { b with borrowed := b.borrowed - 1 })
      (updateFirst p (fun b => { b with borrowed := b.borrowed + 1 }) l) = l := by
  induction l with
  | nil => rfl
  | cons a l ih =>
    by_cases hpa : p a
    · rw [updateFirst_cons_pos hpa, updateFirst_cons_pos (by rw [hp]; exact hpa)]
      congr 1
      cases a
      simp
    · rw [updateFirst_cons_neg (by simpa using hpa),
        updateFirst_cons_neg (by simpa using hpa), ih]

/-- C8: a successful borrow followed immediately by a return of the same
(member, book) pair restores the store exactly as it was: the return
succeeds, `book.borrowed` goes back to its prior value, and the
Borrowing record created by the borrow is removed. -/
theorem borrow_then_return (s : LibState) (today : Int) (mc bc : String)
    (s' : LibState) (bid : String)
    (h : borrow_book s today mc bc = Except.ok (s', bid)) :
    return_book s' today mc bc = Except.ok s := by
  unfold borrow_book at h
  split at h
  · exact absurd h (by simp)
  · rename_i member hm
    split at h
    · exact absurd h (by simp)
    · rename_i book hb
      split at h
      · exact absurd h (by simp)
      · rename_i hstock
        split at h
        · exact absurd h (by simp)
        · rename_i hcount
          split at h
          · exact absurd h (by simp)
          · rename_i hpen
            split at h
            · exact absurd h (by simp)
            · rename_i hdup
              injection h with h1
              injection h1 with hS hbid
              subst hS
              unfold LibState.findMember at hm
              unfold LibState.findBook at hb
              have hmc : member.code = mc := by simpa using List.find?_some hm
              have hbc : book.code = bc := by simpa using List.find?_some hb
              subst hmc
              subst hbc
              have hnone : List.find?
                  (fun x : Borrowing =>
                    x.member_code == member.code && x.book_code == book.code)
                  s.borrowings = none := by
                have := Option.not_isSome_iff_eq_none.mp hdup
                simpa [LibState.findBorrowing] using this
              have hm2 : List.find? (fun x : Book => x.code == book.code)
                  (updateFirst (fun x : Book => x.code == book.code)
                    (fun x => { x with borrowed := x.borrowed + 1 }) s.books)
                  = some { book with borrowed := book.borrowed + 1 } := by
                rw [@find?_updateFirst Book (fun x : Book => x.code == book.code)
                  (fun x => { x with borrowed := x.borrowed + 1 }) (fun x hx => hx)
                  s.books, hb]
                rfl
              have hbr2 : List.find?
                  (fun x : Borrowing =>
                    x.member_code == member.code && x.book_code == book.code)
                  (s.borrowings ++
                    [⟨borrowingId (s.borrowings.length + 1), member.code, book.code, today⟩])
                  = some ⟨borrowingId (s.borrowings.length + 1),
                      member.code, book.code, today⟩ := by
                rw [List.find?_append, hnone, Option.none_or]
                exact List.find?_cons_of_pos _ (by simp)
              simp only [return_book, LibState.findMember, LibState.findBook,
                LibState.findBorrowing, hm, hm2, hbr2]
              simp only [if_neg (show ¬ (0:Int) < today - today - 7 by omega)]
              rw [@updateFirst_inc_dec (fun x : Book => x.code == book.code)
                  (fun x => rfl) s.books, updateFirst_find?_self hm,
                eraseFirstP_append_singleton hnone (by simp)]

/-- C8 witness: borrow at `stOneFree` (producing `stOneLent`), then the
immediate return restores `stOneFree` exactly. -/
theorem borrow_then_return_witness :
    return_book stOneLent 0 "M001" "B001" = Except.ok stOneFree := by
  exact borrow_then_return stOneFree 0 "M001" "B001" stOneLent "B001" (by decide)

/-- C9: an on-time successful return (`d ≤ 7` days since borrowing)
leaves the member table untouched — in particular any prior
`penalty_end_date` survives unchanged — and changes each book in no
field except possibly decrementing `borrowed` by one. -/
theorem on_time_return_frame (s : LibState) (today : Int) (mc bc : String)
    (s' : LibState) (m : Member) (b : Book) (br : Borrowing)
    (hm : s.findMember mc = some m) (hb : s.findBook bc = some b)
    (hbr : s.findBorrowing m.code b.code = some br)
    (hontime : today - br.borrowed_at ≤ 7)
    (hok : return_book s today mc bc = Except.ok s') :
    s'.members = s.members ∧ List.Forall₂ BookFrame s.books s'.books := by
  simp only [return_book, hm, hb, hbr] at hok
  injection hok with h1
  subst h1
  simp only [if_neg (show ¬ (0:Int) < today - br.borrowed_at - 7 by omega)]
  constructor
  · show updateFirst (fun x : Member => x.code == mc) (fun _ => m) s.members = s.members
    exact updateFirst_find?_self (by simpa [LibState.findMember] using hm)
  · show List.Forall₂ BookFrame s.books
      (updateFirst (fun x : Book => x.code == bc)
        (fun x => { x with borrowed := x.borrowed - 1 }) s.books)
    apply forall₂_updateFirst
    · intro x
      exact ⟨rfl, rfl, rfl, rfl, rfl, Or.inl rfl⟩
    · intro x
      exact ⟨rfl, rfl, rfl, rfl, rfl, Or.inr rfl⟩

/-- C9 witness: returning the day-0 borrowing of `stOneLent` on day 5
(on time) keeps the members table and only decrements `borrowed`. -/
theorem on_time_return_frame_witness :
    (⟨[bkFree], [alice, bob], []⟩ : LibState).members = stOneLent.members
    ∧ List.Forall₂ BookFrame stOneLent.books [bkFree] := by
  exact on_time_return_frame stOneLent 5 "M001" "B001"
    ⟨[bkFree], [alice, bob], []⟩ alice bkLent ⟨"B001", "M001", "B001", 0⟩
    (by decide) (by decide) (by decide) (by decide) (by decide)

/-- C10: deleting an existing book succeeds unconditionally — the
handler never inspects borrowings — removing that (unique-coded) book
while leaving the members and borrowings tables untouched, so active
Borrowing rows referencing the deleted book survive unmodified. -/
theorem delete_book_frame (s : LibState) (code : String) (b : Book) (br : Borrowing)
    (hb : s.findBook code = some b) (hbr : br ∈ s.borrowings)
    (_href : br.book_code = code)
    (hnd : s.books.Pairwise (fun x y => x.code ≠ y.code)) :
    isSuccess (delete_book s code) = true
    ∧ ∀ s', delete_book s code = Except.ok s' →
        s'.borrowings = s.borrowings ∧ s'.members = s.members
        ∧ s'.findBook code = none ∧ br ∈ s'.borrowings := by
  constructor
  · simp [delete_book, hb, isSuccess]
  · intro s' h
    simp only [delete_book, hb] at h
    injection h with h1
    subst h1
    refine ⟨rfl, rfl, ?_, hbr⟩
    show (eraseFirstP (fun x : Book => x.code == code) s.books).find?
      (fun x : Book => x.code == code) = none
    apply find?_eraseFirstP
    exact hnd.imp (fun hxy hpq =>
      hxy ((eq_of_beq hpq.1).trans (eq_of_beq hpq.2).symm))

/-- C10 witness: deleting book `B001` from `stOneLent`, where an active
borrowing references it, succeeds; the borrowing row survives and the
book is gone. -/
theorem delete_book_frame_witness :
    isSuccess (delete_book stOneLent "B001") = true
    ∧ (⟨"B001", "M001", "B001", 0⟩ : Borrowing) ∈ stOneLent.borrowings
    ∧ (⟨[], [alice, bob], [⟨"B001", "M001", "B001", 0⟩]⟩ : LibState).findBook "B001"
        = none := by
  have h := delete_book_frame stOneLent "B001" bkLent ⟨"B001", "M001", "B001", 0⟩
    (by decide) (by decide) (by decide) (by simp [stOneLent])
  refine ⟨h.1, by decide, ?_⟩
  exact (h.2 ⟨[], [alice, bob], [⟨"B001", "M001", "B001", 0⟩]⟩ (by decide)).2.2.1

end EigenBE
